import Mathlib

set_option maxHeartbeats 1000000
set_option maxRecDepth 100000

/-!
Shallow embedding of the monassmat core computation engine:
`src/monassmat/calculations.py` (time utilities, theoretical contract
figures, totals aggregator) and `src/monassmat/app.py` (settings timeline,
period summarizer, year aggregator).  Python floats are embedded as `ℚ`,
Python `date` values as explicit year/month/day triples, and fallible
functions (those that `raise`) return `Except String`.
-/

/-- Calendar date, mirroring Python `datetime.date` (compared lexicographically). -/
structure Date where
  year : Nat
  month : Nat
  day : Nat
deriving Inhabited, DecidableEq

/-- Python date ordering `a <= b` (lexicographic on year, month, day). -/
def dateLE (a b : Date) : Prop :=
  a.year < b.year ∨ (a.year = b.year ∧ (a.month < b.month ∨ (a.month = b.month ∧ a.day ≤ b.day)))

instance (a b : Date) : Decidable (dateLE a b) := by
  unfold dateLE; exact inferInstance

theorem dateLE_refl (a : Date) : dateLE a a := by
  unfold dateLE; omega

theorem dateLE_trans {a b c : Date} (h1 : dateLE a b) (h2 : dateLE b c) : dateLE a c := by
  unfold dateLE at *; omega

theorem dateLE_total (a b : Date) : dateLE a b ∨ dateLE b a := by
  unfold dateLE; omega

/-- Gregorian leap-year test (as used by Python's `calendar` module). -/
def isLeap (y : Nat) : Bool :=
  (y % 4 == 0 && y % 100 != 0) || (y % 400 == 0)

/-- Number of days in a calendar month: Python `calendar.monthrange(y, m)[1]`. -/
def monthLength (y m : Nat) : Nat :=
  if m = 2 then (if isLeap y then 29 else 28)
  else if m = 4 ∨ m = 6 ∨ m = 9 ∨ m = 11 then 30
  else 31

/-- The day after `d`: Python `d + timedelta(days=1)` for in-range dates. -/
def nextDay (d : Date) : Date :=
  if d.day < monthLength d.year d.month then ⟨d.year, d.month, d.day + 1⟩
  else if d.month < 12 then ⟨d.year, d.month + 1, 1⟩
  else ⟨d.year + 1, 1, 1⟩

theorem dateLE_nextDay (d : Date) : dateLE d (nextDay d) := by
  unfold nextDay dateLE
  split
  · simp
  · split <;> simp

/-- Monotone day index used solely to bound the iteration `iter_days`. -/
def dayOrdinal (d : Date) : Nat := 372 * d.year + 31 * d.month + d.day

def dayListAux : Nat → Date → Date → List Date
  | 0, _, _ => []
  | fuel + 1, cur, stop =>
    if dateLE cur stop then cur :: dayListAux fuel (nextDay cur) stop else []

/-- All days from `startDay` to `stopDay` inclusive: Python `iter_days(start, end)`. -/
def dayList (startDay stopDay : Date) : List Date :=
  dayListAux (dayOrdinal stopDay + 1 - dayOrdinal startDay) startDay stopDay

/-! ## calculations.py : data model -/

/-- Python `WorkdayKind` enumeration. -/
inductive WorkdayKind where
  | normal
  | absence
  | unpaid_leave
  | holiday
  | assmat_leave
deriving Inhabited, DecidableEq

/-- Python `ContractFacts` dataclass. -/
structure ContractFacts where
  start_date : Date
  end_date : Option Date
  hours_per_week : ℚ
  weeks_per_year : ℚ
  hourly_rate : ℚ
deriving Inhabited, DecidableEq

/-- Python `WorkdayFacts` dataclass. -/
structure WorkdayFacts where
  day : Date
  hours : ℚ
  kind : WorkdayKind
deriving Inhabited, DecidableEq

/-- Time of day at minute precision (Python `datetime.time`, seconds unused). -/
structure TimeOfDay where
  hour : Nat
  minute : Nat
deriving Inhabited, DecidableEq

/-- Python `_assert_positive(name, value)`: raises when `value <= 0`. -/
def assertPositive (name : String) (value : ℚ) : Except String Unit :=
  if value ≤ 0 then .error (name ++ " must be > 0") else .ok ()

/-- Python `hours_between_times(start, end)`. -/
def hours_between_times (s e : TimeOfDay) : Except String ℚ :=
  let start_minutes := s.hour * 60 + s.minute
  let end_minutes := e.hour * 60 + e.minute
  if end_minutes ≤ start_minutes then .error "end time must be after start time"
  else .ok (((end_minutes : ℚ) - (start_minutes : ℚ)) / 60)

/-- Python `contract_monthly_hours(contract)`: two positivity assertions (a raised
error propagates), then `hours_per_week * weeks_per_year / 12`. -/
def contract_monthly_hours (c : ContractFacts) : Except String ℚ :=
  match assertPositive "hours_per_week" c.hours_per_week with
  | .error e => .error e
  | .ok _ =>
    match assertPositive "weeks_per_year" c.weeks_per_year with
    | .error e => .error e
    | .ok _ => .ok (c.hours_per_week * c.weeks_per_year / 12)

/-- Python `contract_monthly_salary(contract)`: asserts `hourly_rate` positive, then
`contract_monthly_hours(contract) * hourly_rate` (errors propagate). -/
def contract_monthly_salary (c : ContractFacts) : Except String ℚ :=
  match assertPositive "hourly_rate" c.hourly_rate with
  | .error e => .error e
  | .ok _ =>
    match contract_monthly_hours c with
    | .error e => .error e
    | .ok mh => .ok (mh * c.hourly_rate)

/-- The value `contract_monthly_hours` returns on success. -/
def monthlyHoursQ (c : ContractFacts) : ℚ := c.hours_per_week * c.weeks_per_year / 12

/-- The value `contract_monthly_salary` returns on success. -/
def monthlySalaryQ (c : ContractFacts) : ℚ := monthlyHoursQ c * c.hourly_rate

theorem contract_monthly_hours_ok {c : ContractFacts} {v : ℚ}
    (h : contract_monthly_hours c = .ok v) : v = monthlyHoursQ c := by
  by_cases h1 : c.hours_per_week ≤ 0 <;> by_cases h2 : c.weeks_per_year ≤ 0 <;>
    simp_all [contract_monthly_hours, assertPositive, monthlyHoursQ]

theorem contract_monthly_hours_of_pos {c : ContractFacts}
    (h1 : 0 < c.hours_per_week) (h2 : 0 < c.weeks_per_year) :
    contract_monthly_hours c = .ok (monthlyHoursQ c) := by
  simp [contract_monthly_hours, assertPositive, if_neg (not_le.mpr h1),
    if_neg (not_le.mpr h2), monthlyHoursQ]

theorem contract_monthly_salary_ok {c : ContractFacts} {v : ℚ}
    (h : contract_monthly_salary c = .ok v) : v = monthlySalaryQ c := by
  by_cases hr : c.hourly_rate ≤ 0
  · simp_all [contract_monthly_salary, assertPositive]
  · unfold contract_monthly_salary assertPositive at h
    rw [if_neg hr] at h
    cases hmh : contract_monthly_hours c with
    | error e => rw [hmh] at h; simp at h
    | ok mh =>
      rw [hmh] at h
      simp at h
      rw [← h, contract_monthly_hours_ok hmh, monthlySalaryQ]

theorem contract_monthly_salary_of_pos {c : ContractFacts}
    (h1 : 0 < c.hours_per_week) (h2 : 0 < c.weeks_per_year) (h3 : 0 < c.hourly_rate) :
    contract_monthly_salary c = .ok (monthlySalaryQ c) := by
  unfold contract_monthly_salary assertPositive
  rw [if_neg (not_le.mpr h3), contract_monthly_hours_of_pos h1 h2]
  simp [monthlySalaryQ]

/-- C8: `contract_monthly_hours` returns exactly `hours_per_week * weeks_per_year / 12`
when both inputs are positive and fails when either is `≤ 0`; `contract_monthly_salary`
returns `monthlyHours * hourly_rate` under the same preconditions and fails when
`hourly_rate ≤ 0`. -/
theorem c8_monthly_figures (f : ContractFacts) :
    (0 < f.hours_per_week → 0 < f.weeks_per_year →
      contract_monthly_hours f = .ok (f.hours_per_week * f.weeks_per_year / 12))
    ∧ (f.hours_per_week ≤ 0 ∨ f.weeks_per_year ≤ 0 →
      ∃ e, contract_monthly_hours f = .error e)
    ∧ (0 < f.hours_per_week → 0 < f.weeks_per_year → 0 < f.hourly_rate →
      contract_monthly_salary f = .ok (f.hours_per_week * f.weeks_per_year / 12 * f.hourly_rate))
    ∧ (f.hourly_rate ≤ 0 ∨ f.hours_per_week ≤ 0 ∨ f.weeks_per_year ≤ 0 →
      ∃ e, contract_monthly_salary f = .error e) := by
  refine ⟨fun h1 h2 => contract_monthly_hours_of_pos h1 h2, ?_, ?_, ?_⟩
  · intro h
    by_cases h1 : f.hours_per_week ≤ 0
    · exact ⟨"hours_per_week must be > 0",
        by simp [contract_monthly_hours, assertPositive, if_pos h1]⟩
    · have h2 : f.weeks_per_year ≤ 0 := by tauto
      exact ⟨"weeks_per_year must be > 0",
        by simp [contract_monthly_hours, assertPositive, if_neg h1, if_pos h2]⟩
  · intro h1 h2 h3
    rw [contract_monthly_salary_of_pos h1 h2 h3]
    simp [monthlySalaryQ, monthlyHoursQ]
  · intro h
    by_cases hr : f.hourly_rate ≤ 0
    · exact ⟨"hourly_rate must be > 0",
        by simp [contract_monthly_salary, assertPositive, if_pos hr]⟩
    · by_cases h1 : f.hours_per_week ≤ 0
      · exact ⟨"hours_per_week must be > 0",
          by simp [contract_monthly_salary, contract_monthly_hours, assertPositive,
            if_neg hr, if_pos h1]⟩
      · have h2 : f.weeks_per_year ≤ 0 := by tauto
        exact ⟨"weeks_per_year must be > 0",
          by simp [contract_monthly_salary, contract_monthly_hours, assertPositive,
            if_neg hr, if_neg h1, if_pos h2]⟩

/-- Witness for C8 at concrete contract facts. -/
theorem c8_monthly_figures_witness :
    contract_monthly_hours ⟨⟨2025, 1, 1⟩, none, 40, 45, 5⟩ = .ok (40 * 45 / 12) :=
  (c8_monthly_figures ⟨⟨2025, 1, 1⟩, none, 40, 45, 5⟩).1 (by norm_num) (by norm_num)

/-- C9: `hours_between_times` returns `(end_minutes - start_minutes) / 60` when the end
time is strictly after the start time (at minute precision) and fails with an
invalid-range error exactly when `end <= start`; in particular 09:00 to 17:00 gives 8
hours and 17:00 to 09:00 fails. -/
theorem c9_hours_between :
    (∀ s e : TimeOfDay,
      (s.hour * 60 + s.minute < e.hour * 60 + e.minute →
        hours_between_times s e =
          .ok ((((e.hour * 60 + e.minute : Nat) : ℚ) - ((s.hour * 60 + s.minute : Nat) : ℚ)) / 60))
      ∧ (e.hour * 60 + e.minute ≤ s.hour * 60 + s.minute →
        ∃ msg, hours_between_times s e = .error msg))
    ∧ hours_between_times ⟨9, 0⟩ ⟨17, 0⟩ = .ok 8
    ∧ (∃ msg, hours_between_times ⟨17, 0⟩ ⟨9, 0⟩ = .error msg) := by
  refine ⟨fun s e => ⟨fun h => ?_, fun h => ⟨"end time must be after start time", ?_⟩⟩,
    by norm_num [hours_between_times], ⟨"end time must be after start time", rfl⟩⟩
  · unfold hours_between_times
    rw [if_neg (by omega)]
  · unfold hours_between_times
    rw [if_pos (by omega)]

/-- Witness for C9 applied at 09:00 and 17:00. -/
theorem c9_hours_between_witness :
    hours_between_times ⟨9, 0⟩ ⟨17, 0⟩ =
      .ok ((((17 * 60 + 0 : Nat) : ℚ) - ((9 * 60 + 0 : Nat) : ℚ)) / 60) :=
  (c9_hours_between.1 ⟨9, 0⟩ ⟨17, 0⟩).1 (by norm_num)

/-! ## app.py : contracts, settings snapshots and the timeline -/

/-- The contract record consumed by `summarize_period` (fields read by the core). -/
structure Contract where
  start_date : Date
  end_date : Option Date
  hours_per_week : ℚ
  weeks_per_year : ℚ
  hourly_rate : ℚ
  days_per_week : Option ℚ
  majoration_threshold : Option ℚ
  majoration_rate : Option ℚ
  fee_meal_amount : Option ℚ
  fee_maintenance_amount : Option ℚ
  salary_net_ceiling : Option ℚ
deriving Inhabited, DecidableEq

/-- A dated settings snapshot (both the stored row and the dict built from it carry
exactly these fields). -/
structure SettingsSnapshot where
  valid_from : Date
  hours_per_week : ℚ
  weeks_per_year : ℚ
  hourly_rate : ℚ
  days_per_week : Option ℚ
  majoration_threshold : Option ℚ
  majoration_rate : Option ℚ
  fee_meal_amount : Option ℚ
  fee_maintenance_amount : Option ℚ
  salary_net_ceiling : Option ℚ
deriving Inhabited, DecidableEq

/-- Python `snapshot_from_contract(contract, valid_from)`. -/
def snapshot_from_contract (c : Contract) (valid_from : Date) : SettingsSnapshot :=
  ⟨valid_from, c.hours_per_week, c.weeks_per_year, c.hourly_rate, c.days_per_week,
    c.majoration_threshold, c.majoration_rate, c.fee_meal_amount, c.fee_maintenance_amount,
    c.salary_net_ceiling⟩

/-- Python `snapshot_from_row(row)`: copies the row's fields into a fresh record. -/
def snapshot_from_row (row : SettingsSnapshot) : SettingsSnapshot :=
  ⟨row.valid_from, row.hours_per_week, row.weeks_per_year, row.hourly_rate,
    row.days_per_week, row.majoration_threshold, row.majoration_rate, row.fee_meal_amount,
    row.fee_maintenance_amount, row.salary_net_ceiling⟩

/-- Snapshot comparison key used by `ordered.sort(key=lambda item: item["valid_from"])`. -/
def snapLE (a b : SettingsSnapshot) : Prop := dateLE a.valid_from b.valid_from

instance : DecidableRel snapLE := fun a b => by unfold snapLE; infer_instance

instance : IsTotal SettingsSnapshot snapLE := ⟨fun a b => dateLE_total _ _⟩

instance : IsTrans SettingsSnapshot snapLE := ⟨fun _ _ _ => dateLE_trans⟩

/-- Python `build_settings_timeline(contract, snapshots)`: a single synthetic snapshot
from the contract when there are no snapshots, otherwise the snapshots stably sorted
ascending by `valid_from` (Python `list.sort` is stable; so is insertion sort). -/
def build_settings_timeline (c : Contract) (snapshots : List SettingsSnapshot) :
    List SettingsSnapshot :=
  match snapshots with
  | [] => [snapshot_from_contract c c.start_date]
  | _ :: _ => List.insertionSort snapLE (snapshots.map snapshot_from_row)

theorem snapshot_from_row_id : snapshot_from_row = id := rfl

theorem map_snapshot_from_row (l : List SettingsSnapshot) : l.map snapshot_from_row = l := by
  rw [snapshot_from_row_id, List.map_id]

theorem timeline_sorted (c : Contract) (snaps : List SettingsSnapshot) :
    List.Pairwise snapLE (build_settings_timeline c snaps) := by
  match snaps with
  | [] => simp [build_settings_timeline]
  | s0 :: rest => exact List.sorted_insertionSort snapLE _

theorem timeline_ne_nil (c : Contract) (snaps : List SettingsSnapshot) :
    build_settings_timeline c snaps ≠ [] := by
  match snaps with
  | [] => simp [build_settings_timeline]
  | s0 :: rest =>
    have hp := List.perm_insertionSort snapLE ((s0 :: rest).map snapshot_from_row)
    intro hcontra
    rw [build_settings_timeline] at hcontra
    rw [hcontra] at hp
    have := hp.length_eq
    simp [map_snapshot_from_row] at this

/-- C3: `build_settings_timeline` returns exactly one synthetic snapshot dated at the
contract's `start_date` and built from its fields when the snapshot list is empty; for
a non-empty list it returns the snapshots sorted ascending by `valid_from`, and no
contract field influences the result. -/
theorem c3_build_timeline :
    (∀ c : Contract, build_settings_timeline c [] = [snapshot_from_contract c c.start_date])
    ∧ (∀ (c : Contract) (snaps : List SettingsSnapshot), snaps ≠ [] →
        List.Pairwise snapLE (build_settings_timeline c snaps)
        ∧ (build_settings_timeline c snaps).Perm snaps
        ∧ ∀ c2 : Contract, build_settings_timeline c2 snaps = build_settings_timeline c snaps) := by
  refine ⟨fun c => rfl, fun c snaps hne => ⟨timeline_sorted c snaps, ?_, ?_⟩⟩
  · match snaps, hne with
    | s0 :: rest, _ =>
      simpa [build_settings_timeline, map_snapshot_from_row] using
        List.perm_insertionSort snapLE ((s0 :: rest).map snapshot_from_row)
  · intro c2
    match snaps, hne with
    | s0 :: rest, _ => rfl

/-- Witness for C3 on a concrete two-snapshot list. -/
theorem c3_build_timeline_witness :
    List.Pairwise snapLE (build_settings_timeline
      ⟨⟨2025, 1, 1⟩, none, 40, 52, 5, none, none, none, none, none, none⟩
      [⟨⟨2025, 1, 15⟩, 20, 52, 6, none, none, none, none, none, none⟩,
       ⟨⟨2025, 1, 1⟩, 40, 52, 5, none, none, none, none, none, none⟩]) :=
  (c3_build_timeline.2
    ⟨⟨2025, 1, 1⟩, none, 40, 52, 5, none, none, none, none, none, none⟩
    [⟨⟨2025, 1, 15⟩, 20, 52, 6, none, none, none, none, none, none⟩,
     ⟨⟨2025, 1, 1⟩, 40, 52, 5, none, none, none, none, none, none⟩]
    (by simp)).1

/-! ## app.py : the settings cursor of the period loop -/

/-- One run of the `while` loop body count: how many consecutive entries at the front
of `rest` have `valid_from ≤ d`, where `rest` is the timeline after the current
cursor position. -/
def cursorSteps (d : Date) : List SettingsSnapshot → Nat
  | [] => 0
  | b :: rest => if dateLE b.valid_from d then cursorSteps d rest + 1 else 0

/-- The `while settings_index + 1 < len(settings) and
settings[settings_index + 1]["valid_from"] <= day: settings_index += 1` loop of
`summarize_period`, started at index `i` on day `d`. -/
def advanceCursor (s : List SettingsSnapshot) (d : Date) (i : Nat) : Nat :=
  i + cursorSteps d (s.drop (i + 1))

theorem cursorSteps_le (d : Date) (l : List SettingsSnapshot) :
    cursorSteps d l ≤ l.length := by
  induction l with
  | nil => simp [cursorSteps]
  | cons b rest ih =>
    simp only [cursorSteps, List.length_cons]
    split
    · omega
    · omega

theorem cursorSteps_covered (d : Date) (l : List SettingsSnapshot) :
    ∀ m, m < cursorSteps d l → dateLE ((l.getD m default).valid_from) d := by
  induction l with
  | nil => intro m hm; simp [cursorSteps] at hm
  | cons b rest ih =>
    intro m hm
    simp only [cursorSteps] at hm
    split at hm
    next hble =>
      cases m with
      | zero => simpa [List.getD_cons_zero] using hble
      | succ m2 =>
        rw [List.getD_cons_succ]
        exact ih m2 (by omega)
    next => omega

theorem cursorSteps_stop (d : Date) (l : List SettingsSnapshot)
    (h : cursorSteps d l < l.length) :
    ¬ dateLE ((l.getD (cursorSteps d l) default).valid_from) d := by
  induction l with
  | nil => simp at h
  | cons b rest ih =>
    by_cases hb : dateLE b.valid_from d
    · have he : cursorSteps d (b :: rest) = cursorSteps d rest + 1 := by
        simp only [cursorSteps]; rw [if_pos hb]
      rw [he] at h ⊢
      rw [List.getD_cons_succ]
      exact ih (by simp only [List.length_cons] at h; omega)
    · have he : cursorSteps d (b :: rest) = 0 := by
        simp only [cursorSteps]; rw [if_neg hb]
      rw [he, List.getD_cons_zero]
      exact hb

theorem getD_drop {α : Type} [Inhabited α] (s : List α) (k m : Nat) :
    (s.drop k).getD m default = s.getD (k + m) default := by
  by_cases h : k + m < s.length
  · rw [List.getD_eq_getElem _ _ (by rw [List.length_drop]; omega),
      List.getD_eq_getElem _ _ h, List.getElem_drop]
  · rw [List.getD_eq_default _ _ (by rw [List.length_drop]; omega),
      List.getD_eq_default _ _ (by omega)]

theorem advanceCursor_ge (s : List SettingsSnapshot) (d : Date) (i : Nat) :
    i ≤ advanceCursor s d i :=
  Nat.le_add_right _ _

theorem advanceCursor_lt (s : List SettingsSnapshot) (d : Date) {i : Nat}
    (h : i < s.length) : advanceCursor s d i < s.length := by
  unfold advanceCursor
  have h1 := cursorSteps_le d (s.drop (i + 1))
  rw [List.length_drop] at h1
  omega

theorem advanceCursor_mem_le (s : List SettingsSnapshot) (d : Date) (i : Nat) :
    ∀ j, i < j → j ≤ advanceCursor s d i → dateLE ((s.getD j default).valid_from) d := by
  intro j h1 h2
  unfold advanceCursor at h2
  have hcov := cursorSteps_covered d (s.drop (i + 1)) (j - (i + 1)) (by omega)
  have e : i + 1 + (j - (i + 1)) = j := by omega
  rwa [getD_drop, e] at hcov

theorem advanceCursor_next_not_le (s : List SettingsSnapshot) (d : Date) (i : Nat)
    (hk : advanceCursor s d i + 1 < s.length) :
    ¬ dateLE ((s.getD (advanceCursor s d i + 1) default).valid_from) d := by
  unfold advanceCursor at hk
  have hstop := cursorSteps_stop d (s.drop (i + 1))
    (by rw [List.length_drop]; omega)
  rw [getD_drop] at hstop
  have e : i + 1 + cursorSteps d (s.drop (i + 1)) = advanceCursor s d i + 1 := by
    unfold advanceCursor; omega
  rwa [e] at hstop

theorem advanceCursor_step (s : List SettingsSnapshot) (d : Date) {i : Nat}
    (h1 : i + 1 < s.length)
    (h2 : dateLE ((s.getD (i + 1) default).valid_from) d) :
    advanceCursor s d i = advanceCursor s d (i + 1) := by
  unfold advanceCursor
  have hd : s.drop (i + 1) = s[i + 1] :: s.drop (i + 2) := List.drop_eq_getElem_cons h1
  rw [hd]
  simp only [cursorSteps]
  rw [if_pos (by rwa [List.getD_eq_getElem _ _ h1] at h2)]
  simp only [show i + 1 + 1 = i + 2 from rfl]
  omega

theorem advanceCursor_from_below (s : List SettingsSnapshot) (d : Date) :
    ∀ i, i < s.length →
      (∀ j, 0 < j → j ≤ i → dateLE ((s.getD j default).valid_from) d) →
      advanceCursor s d 0 = advanceCursor s d i := by
  intro i
  induction i with
  | zero => intro _ _; rfl
  | succ n ih =>
    intro hn hall
    rw [ih (by omega) (fun j hj1 hj2 => hall j hj1 (by omega)),
      advanceCursor_step s d hn (hall (n + 1) (by omega) le_rfl)]

/-- The index the period loop's cursor walk selects for day `d` when started from
index 0 (a fresh search over the whole timeline). -/
def effIdx (s : List SettingsSnapshot) (d : Date) : Nat := advanceCursor s d 0

/-- The snapshot effective on day `d` according to the cursor walk. -/
def snapOn (s : List SettingsSnapshot) (d : Date) : SettingsSnapshot :=
  s.getD (effIdx s d) default

/-- Sample timeline for concrete witnesses: parameters change on 2025-01-15. -/
def snapA : SettingsSnapshot :=
  ⟨⟨2025, 1, 1⟩, 40, 52, 5, some 5, none, none, some 1, some 2, none⟩

def snapB : SettingsSnapshot :=
  ⟨⟨2025, 1, 15⟩, 20, 52, 6, some 5, none, none, some (3/2), some (5/2), none⟩

def sampleTimeline : List SettingsSnapshot := [snapA, snapB]

/-- C2: on a sorted timeline the cursor walk lands on the last entry whose
`valid_from ≤ day` — it is in range, its `valid_from` is `≤ day`, and every entry with
`valid_from ≤ day` has an index `≤` it (so on a day equal to a snapshot's `valid_from`
that snapshot itself, not its predecessor, is effective, and exactly one snapshot
governs each covered day); moreover, for any later day, restarting the loop from the
current cursor (as the ascending period loop does) yields the same index as a fresh
search from 0. -/
theorem c2_cursor_last_snapshot (s : List SettingsSnapshot) (d : Date)
    (hs : List.Pairwise snapLE s) (hne : s ≠ [])
    (h0 : dateLE ((s.getD 0 default).valid_from) d) :
    effIdx s d < s.length
    ∧ dateLE ((s.getD (effIdx s d) default).valid_from) d
    ∧ (∀ j, j < s.length → dateLE ((s.getD j default).valid_from) d → j ≤ effIdx s d)
    ∧ (∀ dn, dateLE d dn → advanceCursor s dn (effIdx s d) = effIdx s dn) := by
  have hlen : 0 < s.length := List.length_pos.mpr hne
  have hlt : effIdx s d < s.length := advanceCursor_lt s d hlen
  refine ⟨hlt, ?_, ?_, ?_⟩
  · rcases Nat.eq_zero_or_pos (effIdx s d) with h | h
    · rw [h]; exact h0
    · exact advanceCursor_mem_le s d 0 _ h le_rfl
  · intro j hj hle
    by_contra hgt
    push_neg at hgt
    have hk1 : effIdx s d + 1 < s.length := by omega
    have hnot := advanceCursor_next_not_le s d 0 hk1
    rcases Nat.lt_or_ge (effIdx s d + 1) j with hlt2 | hge
    · apply hnot
      have hp : snapLE (s.getD (effIdx s d + 1) default) (s.getD j default) := by
        rw [List.pairwise_iff_getElem] at hs
        have h3 := hs (effIdx s d + 1) j hk1 hj hlt2
        rwa [← List.getD_eq_getElem _ default hk1, ← List.getD_eq_getElem _ default hj] at h3
      exact dateLE_trans hp hle
    · have hje : j = effIdx s d + 1 := by omega
      rw [hje] at hle
      exact hnot hle
  · intro dn hdn
    unfold effIdx
    exact (advanceCursor_from_below s dn (advanceCursor s d 0) hlt (fun j hj1 hj2 =>
      dateLE_trans (advanceCursor_mem_le s d 0 j hj1 hj2) hdn)).symm

/-- Witness for C2 on the sample timeline at 2025-01-20. -/
theorem c2_cursor_last_snapshot_witness :
    dateLE ((sampleTimeline.getD (effIdx sampleTimeline ⟨2025, 1, 20⟩) default).valid_from)
      ⟨2025, 1, 20⟩ :=
  (c2_cursor_last_snapshot sampleTimeline ⟨2025, 1, 20⟩ (by decide) (by decide)
    (by decide)).2.1

/-! ## Workday rows, totals aggregator, unpaid-leave deduction -/

/-- A stored workday row as `summarize_period` reads it (`wd.date`, `wd.hours`,
`wd.kind`, `wd.fee_meal`, `wd.fee_maintenance`). -/
structure Workday where
  date : Date
  hours : ℚ
  kind : WorkdayKind
  fee_meal : Bool
  fee_maintenance : Bool
deriving Inhabited, DecidableEq

/-- Python `workdays_by_date = {wd.date: wd for wd in workdays}` followed by
`workdays_by_date.get(day)`: the last record with the given date wins. -/
def lookupWorkday (workdays : List Workday) (d : Date) : Option Workday :=
  workdays.reverse.find? (fun wd => decide (wd.date = d))

/-- The record of totals returned by `workday_totals`. -/
structure WorkdayTotals where
  total_hours : ℚ
  normal_hours : ℚ
  majorated_hours : ℚ
  base_salary : ℚ
  majoration_salary : ℚ
  total_salary : ℚ
deriving Inhabited, DecidableEq

/-- Success value of `workday_totals` (spec 4.3): filter to `include_kinds`, sum the
hours; with a majoration threshold each record's hours are split per record into
`min(hours, threshold)` and the remainder; `base_salary = normal * rate`,
`majoration_salary = majorated * rate * majoration_rate` (0 when no rate). -/
def workdayTotalsQ (wds : List WorkdayFacts) (hourly_rate : ℚ)
    (majoration_threshold majoration_rate : Option ℚ)
    (include_kinds : List WorkdayKind) : WorkdayTotals :=
  let included := wds.filter (fun wd => include_kinds.contains wd.kind)
  let total := (included.map (fun wd => wd.hours)).sum
  let normal := match majoration_threshold with
    | some t => (included.map (fun wd => min wd.hours t)).sum
    | none => total
  let majorated := match majoration_threshold with
    | some t => (included.map (fun wd => wd.hours - min wd.hours t)).sum
    | none => 0
  let base := normal * hourly_rate
  let majSalary := majorated * hourly_rate * majoration_rate.getD 0
  ⟨total, normal, majorated, base, majSalary, base + majSalary⟩

/-- Modelled from the spec: `workday_totals` is imported from `monassmat.calculations`
by `app.py` and exercised by the tests, but its definition is not present under
`src/`; this follows spec section 4.3 — filter to `include_kinds` (default: Normal
only), accumulate per record, and fail only on malformed input (a negative `hours`
among the included records). -/
def workday_totals (wds : List WorkdayFacts) (hourly_rate : ℚ)
    (majoration_threshold majoration_rate : Option ℚ)
    (include_kinds : List WorkdayKind) : Except String WorkdayTotals :=
  if (wds.filter (fun wd => include_kinds.contains wd.kind)).any
      (fun wd => decide (wd.hours < 0)) then
    .error "Workday hours must be >= 0"
  else
    .ok (workdayTotalsQ wds hourly_rate majoration_threshold majoration_rate include_kinds)

/-- Modelled from the spec: `unpaid_leave_deduction` is imported from
`monassmat.calculations` by `app.py` and exercised by the tests, but its definition is
not present under `src/`; this follows spec section 4.4 — 0 when `days_per_week` is
unset (deduction rule undefined without a daily-hours reference), otherwise
`day_count * (hours_per_week / days_per_week) * hourly_rate`. -/
def unpaid_leave_deduction (day_count hours_per_week : ℚ) (days_per_week : Option ℚ)
    (hourly_rate : ℚ) : ℚ :=
  match days_per_week with
  | none => 0
  | some dpw => day_count * (hours_per_week / dpw) * hourly_rate

/-! ## app.py : summarize_period -/

/-- The mutable accumulators of the `summarize_period` loop (and the settings cursor). -/
structure LoopState where
  idx : Nat
  theo_hours : ℚ
  theo_salary : ℚ
  real_hours : ℚ
  normal_hours : ℚ
  majorated_hours : ℚ
  salary_base : ℚ
  salary_majoration : ℚ
  work_days : Nat
  absence_days : Nat
  unpaid_leave_days : Nat
  assmat_leave_days : Nat
  holiday_days : Nat
  fee_meal_days : Nat
  fee_maintenance_days : Nat
  fee_meal_total : ℚ
  fee_maintenance_total : ℚ
  unpaid_deduction : ℚ
deriving Inhabited, DecidableEq

/-- All accumulators zero, settings cursor at index 0 (the loop's starting state). -/
def zeroState : LoopState := ⟨0, 0, 0, 0, 0, 0, 0, 0, 0, 0, 0, 0, 0, 0, 0, 0, 0, 0⟩

/-- Set the cursor to `i` and add the day's increments `dl` to every accumulator
(each `+=` of the loop body adds exactly one day's increment). -/
def mergeState (st : LoopState) (i : Nat) (dl : LoopState) : LoopState :=
  ⟨i, st.theo_hours + dl.theo_hours, st.theo_salary + dl.theo_salary,
    st.real_hours + dl.real_hours, st.normal_hours + dl.normal_hours,
    st.majorated_hours + dl.majorated_hours, st.salary_base + dl.salary_base,
    st.salary_majoration + dl.salary_majoration, st.work_days + dl.work_days,
    st.absence_days + dl.absence_days, st.unpaid_leave_days + dl.unpaid_leave_days,
    st.assmat_leave_days + dl.assmat_leave_days, st.holiday_days + dl.holiday_days,
    st.fee_meal_days + dl.fee_meal_days, st.fee_maintenance_days + dl.fee_maintenance_days,
    st.fee_meal_total + dl.fee_meal_total, st.fee_maintenance_total + dl.fee_maintenance_total,
    st.unpaid_deduction + dl.unpaid_deduction⟩

/-- The `ContractFacts` value `summarize_period` builds each day: dates from the
contract, tunable parameters from the effective snapshot. -/
def factsOf (c : Contract) (cur : SettingsSnapshot) : ContractFacts :=
  ⟨c.start_date, c.end_date, cur.hours_per_week, cur.weeks_per_year, cur.hourly_rate⟩

/-- The day's fractional theoretical contribution (step 1 of the loop body):
`monthlyHours / daysInThatCalendarMonth` into `theo_hours`, same for `theo_salary`. -/
def theoDelta (c : Contract) (cur : SettingsSnapshot) (day : Date) : LoopState :=
  { zeroState with
      theo_hours := monthlyHoursQ (factsOf c cur) / (monthLength day.year day.month : ℚ)
      theo_salary := monthlySalaryQ (factsOf c cur) / (monthLength day.year day.month : ℚ) }

/-- The `if/elif` chain on `wd.kind`: increments the matching category counter, and for
`UNPAID_LEAVE` also accumulates one day's deduction from the effective snapshot. -/
def kindDelta (cur : SettingsSnapshot) (wd : Workday) (st : LoopState) : LoopState :=
  match wd.kind with
  | .normal => { st with work_days := st.work_days + 1 }
  | .absence => { st with absence_days := st.absence_days + 1 }
  | .unpaid_leave =>
    { st with
        unpaid_leave_days := st.unpaid_leave_days + 1
        unpaid_deduction := st.unpaid_deduction +
          unpaid_leave_deduction 1 cur.hours_per_week cur.days_per_week cur.hourly_rate }
  | .assmat_leave => { st with assmat_leave_days := st.assmat_leave_days + 1 }
  | .holiday => { st with holiday_days := st.holiday_days + 1 }

/-- The `if wd.kind == NORMAL and wd.hours > 0` branch: run `workday_totals` on the
single record with the effective snapshot's rate, threshold and majoration rate, and
accumulate its five totals. -/
def totalsDelta (cur : SettingsSnapshot) (wd : Workday) (st : LoopState) : LoopState :=
  if wd.kind = WorkdayKind.normal ∧ 0 < wd.hours then
    { st with
        real_hours := st.real_hours + (workdayTotalsQ [⟨wd.date, wd.hours, wd.kind⟩]
          cur.hourly_rate cur.majoration_threshold cur.majoration_rate
          [WorkdayKind.normal]).total_hours
        normal_hours := st.normal_hours + (workdayTotalsQ [⟨wd.date, wd.hours, wd.kind⟩]
          cur.hourly_rate cur.majoration_threshold cur.majoration_rate
          [WorkdayKind.normal]).normal_hours
        majorated_hours := st.majorated_hours + (workdayTotalsQ [⟨wd.date, wd.hours, wd.kind⟩]
          cur.hourly_rate cur.majoration_threshold cur.majoration_rate
          [WorkdayKind.normal]).majorated_hours
        salary_base := st.salary_base + (workdayTotalsQ [⟨wd.date, wd.hours, wd.kind⟩]
          cur.hourly_rate cur.majoration_threshold cur.majoration_rate
          [WorkdayKind.normal]).base_salary
        salary_majoration := st.salary_majoration + (workdayTotalsQ [⟨wd.date, wd.hours, wd.kind⟩]
          cur.hourly_rate cur.majoration_threshold cur.majoration_rate
          [WorkdayKind.normal]).majoration_salary }
  else st

/-- The `if wd.fee_meal` branch: one fee day, plus the snapshot's meal fee (0 if unset). -/
def mealDelta (cur : SettingsSnapshot) (wd : Workday) (st : LoopState) : LoopState :=
  if wd.fee_meal then
    { st with
        fee_meal_days := st.fee_meal_days + 1
        fee_meal_total := st.fee_meal_total + cur.fee_meal_amount.getD 0 }
  else st

/-- The `if wd.fee_maintenance` branch. -/
def maintDelta (cur : SettingsSnapshot) (wd : Workday) (st : LoopState) : LoopState :=
  if wd.fee_maintenance then
    { st with
        fee_maintenance_days := st.fee_maintenance_days + 1
        fee_maintenance_total := st.fee_maintenance_total + cur.fee_maintenance_amount.getD 0 }
  else st

/-- The increments one loop-body iteration of `summarize_period` adds to its
accumulators on a day governed by snapshot `cur`: the day's fractional theoretical
contribution, then (when a workday record exists for the day) the kind counter with
its possible deduction, the single-record totals for a positive-hours Normal day, and
the fee counters/totals. -/
def dayContrib (c : Contract) (workdays : List Workday) (cur : SettingsSnapshot)
    (day : Date) : LoopState :=
  match lookupWorkday workdays day with
  | none => theoDelta c cur day
  | some wd => maintDelta cur wd (mealDelta cur wd (totalsDelta cur wd
      (kindDelta cur wd (theoDelta c cur day))))

/-- One iteration of the `for day in iter_days(start, end)` loop: advance the settings
cursor, then add the day's increments for the snapshot at the new cursor position. -/
def dayStep (c : Contract) (workdays : List Workday) (s : List SettingsSnapshot)
    (st : LoopState) (day : Date) : LoopState :=
  mergeState st (advanceCursor s day st.idx)
    (dayContrib c workdays (s.getD (advanceCursor s day st.idx) default) day)

/-- One loop iteration with the failure behaviour: `contract_monthly_hours`,
`contract_monthly_salary` and (on a positive-hours Normal day) `workday_totals` can
raise, and their error propagates out of the period loop; on success the state is
exactly `dayStep`'s. -/
def dayStepE (c : Contract) (workdays : List Workday) (s : List SettingsSnapshot)
    (st : LoopState) (day : Date) : Except String LoopState :=
  match contract_monthly_hours (factsOf c (s.getD (advanceCursor s day st.idx) default)) with
  | .error e => .error e
  | .ok _ =>
    match contract_monthly_salary (factsOf c (s.getD (advanceCursor s day st.idx) default)) with
    | .error e => .error e
    | .ok _ =>
      match lookupWorkday workdays day with
      | none => .ok (dayStep c workdays s st day)
      | some wd =>
        if wd.kind = WorkdayKind.normal ∧ 0 < wd.hours then
          match workday_totals [⟨wd.date, wd.hours, wd.kind⟩]
              (s.getD (advanceCursor s day st.idx) default).hourly_rate
              (s.getD (advanceCursor s day st.idx) default).majoration_threshold
              (s.getD (advanceCursor s day st.idx) default).majoration_rate
              [WorkdayKind.normal] with
          | .error e => .error e
          | .ok _ => .ok (dayStep c workdays s st day)
        else .ok (dayStep c workdays s st day)

/-- The period loop over a list of days, propagating a raised error. -/
def runDaysE (c : Contract) (workdays : List Workday) (s : List SettingsSnapshot) :
    List Date → LoopState → Except String LoopState
  | [], st => .ok st
  | day :: rest, st =>
    match dayStepE c workdays s st day with
    | .error e => .error e
    | .ok st1 => runDaysE c workdays s rest st1

/-- Python `MonthlySummaryOut` (schemas.py): the record `summarize_period` returns. -/
structure MonthlySummaryOut where
  period_start : Date
  period_end : Date
  monthly_hours_theoretical : ℚ
  monthly_salary_theoretical : ℚ
  hours_real : ℚ
  hours_normal : ℚ
  hours_majorated : ℚ
  hours_delta : ℚ
  work_days : Nat
  absence_days : Nat
  unpaid_leave_days : Nat
  assmat_leave_days : Nat
  holiday_days : Nat
  salary_base : ℚ
  salary_majoration : ℚ
  salary_real_estimated : ℚ
  fee_meal_days : Nat
  fee_maintenance_days : Nat
  fee_meal_total : ℚ
  fee_maintenance_total : ℚ
  unpaid_leave_deduction : ℚ
  total_estimated : ℚ
  average_hours_per_day : ℚ
deriving Inhabited, DecidableEq

/-- The epilogue of `summarize_period`: derived fields from the final accumulators. -/
def mkSummary (startDay stopDay : Date) (st : LoopState) : MonthlySummaryOut :=
  let total_salary := st.salary_base + st.salary_majoration
  let hours_delta := st.real_hours - st.theo_hours
  let total_estimated :=
    total_salary + st.fee_meal_total + st.fee_maintenance_total - st.unpaid_deduction
  let average_hours := if st.work_days = 0 then 0 else st.real_hours / (st.work_days : ℚ)
  ⟨startDay, stopDay, st.theo_hours, st.theo_salary, st.real_hours, st.normal_hours,
    st.majorated_hours, hours_delta, st.work_days, st.absence_days, st.unpaid_leave_days,
    st.assmat_leave_days, st.holiday_days, st.salary_base, st.salary_majoration,
    total_salary, st.fee_meal_days, st.fee_maintenance_days, st.fee_meal_total,
    st.fee_maintenance_total, st.unpaid_deduction, total_estimated, average_hours⟩

/-- Python `summarize_period(contract, workdays, settings_snapshots, start=, end=)`. -/
def summarize_period (c : Contract) (workdays : List Workday)
    (settings_snapshots : List SettingsSnapshot) (startDay stopDay : Date) :
    Except String MonthlySummaryOut :=
  match runDaysE c workdays (build_settings_timeline c settings_snapshots)
      (dayList startDay stopDay) zeroState with
  | .error e => .error e
  | .ok st => .ok (mkSummary startDay stopDay st)

/-- The error-free value of the period loop (what the loop computes when nothing
raises). -/
def summarizeFold (c : Contract) (workdays : List Workday)
    (snaps : List SettingsSnapshot) (startDay stopDay : Date) : LoopState :=
  (dayList startDay stopDay).foldl
    (dayStep c workdays (build_settings_timeline c snaps)) zeroState

/-! ## Success behaviour of the period loop -/

theorem dayStepE_ok {c : Contract} {w : List Workday} {s : List SettingsSnapshot}
    {st : LoopState} {day : Date} {st2 : LoopState}
    (h : dayStepE c w s st day = .ok st2) : st2 = dayStep c w s st day := by
  unfold dayStepE at h
  repeat' split at h
  all_goals first
    | cases h; rfl
    | cases h

theorem runDaysE_ok (c : Contract) (w : List Workday) (s : List SettingsSnapshot) :
    ∀ (L : List Date) (st st2 : LoopState),
      runDaysE c w s L st = .ok st2 → st2 = L.foldl (dayStep c w s) st := by
  intro L
  induction L with
  | nil =>
    intro st st2 h
    exact (Except.ok.inj h).symm
  | cons day rest ih =>
    intro st st2 h
    unfold runDaysE at h
    split at h
    next heq => cases h
    next st1 heq =>
      rw [List.foldl_cons, ← dayStepE_ok heq]
      exact ih st1 st2 h

theorem summarize_period_ok {c : Contract} {w : List Workday}
    {snaps : List SettingsSnapshot} {startDay stopDay : Date} {out : MonthlySummaryOut}
    (h : summarize_period c w snaps startDay stopDay = .ok out) :
    out = mkSummary startDay stopDay (summarizeFold c w snaps startDay stopDay) := by
  unfold summarize_period at h
  split at h
  next heq => cases h
  next st heq =>
    have h1 := Except.ok.inj h
    have h2 := runDaysE_ok c w (build_settings_timeline c snaps)
      (dayList startDay stopDay) zeroState st heq
    rw [← h1, h2]
    rfl

/-! ## Concrete scenario (the settings-history test data) -/

/-- The test's contract: rate 5, 40h/week, 52 weeks, 5 days/week, fees 1 and 2. -/
def scContract : Contract :=
  ⟨⟨2025, 1, 1⟩, none, 40, 52, 5, some 5, none, none, some 1, some 2, none⟩

/-- The test's workdays: one Normal 8h day under each regime (Jan 10 and Jan 20), one
unpaid-leave day on Jan 16. -/
def scWorkdays : List Workday :=
  [⟨⟨2025, 1, 10⟩, 8, .normal, true, false⟩,
   ⟨⟨2025, 1, 20⟩, 8, .normal, false, true⟩,
   ⟨⟨2025, 1, 16⟩, 0, .unpaid_leave, false, false⟩]

def jan1 : Date := ⟨2025, 1, 1⟩

def jan31 : Date := ⟨2025, 1, 31⟩

/-- The summary the embedding computes for January 2025 in the scenario. -/
def scOut : MonthlySummaryOut :=
  mkSummary jan1 jan31 (summarizeFold scContract scWorkdays sampleTimeline jan1 jan31)

/-- C5: for every summary produced by `summarize_period`, the total salary equals
`salary_base + salary_majoration`, `hours_delta` equals real hours minus theoretical
hours, `total_estimated` equals total salary plus both fee totals minus the
unpaid-leave deduction, and `average_hours_per_day` equals real hours over work days
(0 when `work_days = 0`). -/
theorem c5_summary_field_identities (c : Contract) (w : List Workday)
    (snaps : List SettingsSnapshot) (startDay stopDay : Date) (out : MonthlySummaryOut)
    (h : summarize_period c w snaps startDay stopDay = .ok out) :
    out.salary_real_estimated = out.salary_base + out.salary_majoration
    ∧ out.hours_delta = out.hours_real - out.monthly_hours_theoretical
    ∧ out.total_estimated = out.salary_real_estimated + out.fee_meal_total
        + out.fee_maintenance_total - out.unpaid_leave_deduction
    ∧ out.average_hours_per_day =
        (if out.work_days = 0 then 0 else out.hours_real / (out.work_days : ℚ)) := by
  rw [summarize_period_ok h]
  exact ⟨rfl, rfl, rfl, rfl⟩

/-- Witness for C5 on the concrete January 2025 scenario. -/
theorem c5_summary_field_identities_witness :
    scOut.salary_real_estimated = scOut.salary_base + scOut.salary_majoration :=
  (c5_summary_field_identities scContract scWorkdays sampleTimeline jan1 jan31 scOut
    (by rfl)).1

/-! ## Per-field characterization of the period loop -/

theorem dayStep_idx (c : Contract) (w : List Workday) (s : List SettingsSnapshot)
    (st : LoopState) (day : Date) :
    (dayStep c w s st day).idx = advanceCursor s day st.idx := rfl

/-- Invariant carried by the period loop: the cursor is in range, and every timeline
entry at or before it (entry 0 aside) was already valid on the day about to be
processed. -/
def CursorInv (s : List SettingsSnapshot) (st : LoopState) (cur : Date) : Prop :=
  st.idx < s.length
  ∧ ∀ j, 0 < j → j ≤ st.idx → dateLE ((s.getD j default).valid_from) cur

theorem cursorInv_zero (s : List SettingsSnapshot) (hne : s ≠ []) (cur : Date) :
    CursorInv s zeroState cur := by
  refine ⟨List.length_pos.mpr hne, ?_⟩
  intro j hj0 hj1
  exfalso
  have h0 : zeroState.idx = 0 := rfl
  omega

theorem cursor_aligned {s : List SettingsSnapshot} {st : LoopState} {cur : Date}
    (hinv : CursorInv s st cur) :
    advanceCursor s cur st.idx = effIdx s cur :=
  (advanceCursor_from_below s cur st.idx hinv.1 (fun j hj0 hj1 => hinv.2 j hj0 hj1)).symm

theorem cursorInv_step {s : List SettingsSnapshot} {st : LoopState} {cur : Date}
    (hinv : CursorInv s st cur) (c : Contract) (w : List Workday) :
    CursorInv s (dayStep c w s st cur) (nextDay cur) := by
  rw [CursorInv, dayStep_idx]
  refine ⟨advanceCursor_lt s cur hinv.1, ?_⟩
  intro j hj0 hj1
  rcases le_or_lt j st.idx with hle | hlt
  · exact dateLE_trans (hinv.2 j hj0 hle) (dateLE_nextDay cur)
  · exact dateLE_trans (advanceCursor_mem_le s cur st.idx j hlt hj1) (dateLE_nextDay cur)

/-- Any accumulator `g` that `mergeState` adds pointwise is, over the whole loop, the
initial value plus the sum of the per-day contributions taken at each day's
effective snapshot. -/
theorem foldl_dayStep_field (c : Contract) (w : List Workday) (s : List SettingsSnapshot)
    (g : LoopState → ℚ) (hg : ∀ st i dl, g (mergeState st i dl) = g st + g dl) :
    ∀ (fuel : Nat) (cur stop : Date) (st : LoopState), CursorInv s st cur →
      g ((dayListAux fuel cur stop).foldl (dayStep c w s) st)
        = g st + ((dayListAux fuel cur stop).map
            (fun d => g (dayContrib c w (snapOn s d) d))).sum := by
  intro fuel
  induction fuel with
  | zero => intro cur stop st hinv; simp [dayListAux]
  | succ n ih =>
    intro cur stop st hinv
    by_cases hcs : dateLE cur stop
    · rw [show dayListAux (n + 1) cur stop = cur :: dayListAux n (nextDay cur) stop from by
        rw [dayListAux]; rw [if_pos hcs]]
      rw [List.foldl_cons, List.map_cons, List.sum_cons]
      rw [ih (nextDay cur) stop _ (cursorInv_step hinv c w)]
      have hstep : g (dayStep c w s st cur)
          = g st + g (dayContrib c w (snapOn s cur) cur) := by
        unfold dayStep
        rw [cursor_aligned hinv]
        exact hg st _ _
      rw [hstep]
      ring
    · rw [show dayListAux (n + 1) cur stop = [] from by
        rw [dayListAux]; rw [if_neg hcs]]
      simp

theorem kindDelta_theo_hours (cur : SettingsSnapshot) (wd : Workday) (st : LoopState) :
    (kindDelta cur wd st).theo_hours = st.theo_hours := by
  unfold kindDelta; cases wd.kind <;> rfl

theorem totalsDelta_theo_hours (cur : SettingsSnapshot) (wd : Workday) (st : LoopState) :
    (totalsDelta cur wd st).theo_hours = st.theo_hours := by
  unfold totalsDelta; split <;> rfl

theorem mealDelta_theo_hours (cur : SettingsSnapshot) (wd : Workday) (st : LoopState) :
    (mealDelta cur wd st).theo_hours = st.theo_hours := by
  unfold mealDelta; split <;> rfl

theorem maintDelta_theo_hours (cur : SettingsSnapshot) (wd : Workday) (st : LoopState) :
    (maintDelta cur wd st).theo_hours = st.theo_hours := by
  unfold maintDelta; split <;> rfl

theorem kindDelta_theo_salary (cur : SettingsSnapshot) (wd : Workday) (st : LoopState) :
    (kindDelta cur wd st).theo_salary = st.theo_salary := by
  unfold kindDelta; cases wd.kind <;> rfl

theorem totalsDelta_theo_salary (cur : SettingsSnapshot) (wd : Workday) (st : LoopState) :
    (totalsDelta cur wd st).theo_salary = st.theo_salary := by
  unfold totalsDelta; split <;> rfl

theorem mealDelta_theo_salary (cur : SettingsSnapshot) (wd : Workday) (st : LoopState) :
    (mealDelta cur wd st).theo_salary = st.theo_salary := by
  unfold mealDelta; split <;> rfl

theorem maintDelta_theo_salary (cur : SettingsSnapshot) (wd : Workday) (st : LoopState) :
    (maintDelta cur wd st).theo_salary = st.theo_salary := by
  unfold maintDelta; split <;> rfl

theorem totalsDelta_unpaid (cur : SettingsSnapshot) (wd : Workday) (st : LoopState) :
    (totalsDelta cur wd st).unpaid_deduction = st.unpaid_deduction := by
  unfold totalsDelta; split <;> rfl

theorem mealDelta_unpaid (cur : SettingsSnapshot) (wd : Workday) (st : LoopState) :
    (mealDelta cur wd st).unpaid_deduction = st.unpaid_deduction := by
  unfold mealDelta; split <;> rfl

theorem maintDelta_unpaid (cur : SettingsSnapshot) (wd : Workday) (st : LoopState) :
    (maintDelta cur wd st).unpaid_deduction = st.unpaid_deduction := by
  unfold maintDelta; split <;> rfl

theorem dayContrib_theo_hours (c : Contract) (w : List Workday) (cur : SettingsSnapshot)
    (day : Date) :
    (dayContrib c w cur day).theo_hours
      = monthlyHoursQ (factsOf c cur) / (monthLength day.year day.month : ℚ) := by
  unfold dayContrib
  split
  · rfl
  · rw [maintDelta_theo_hours, mealDelta_theo_hours, totalsDelta_theo_hours,
      kindDelta_theo_hours]
    rfl

theorem dayContrib_theo_salary (c : Contract) (w : List Workday) (cur : SettingsSnapshot)
    (day : Date) :
    (dayContrib c w cur day).theo_salary
      = monthlySalaryQ (factsOf c cur) / (monthLength day.year day.month : ℚ) := by
  unfold dayContrib
  split
  · rfl
  · rw [maintDelta_theo_salary, mealDelta_theo_salary, totalsDelta_theo_salary,
      kindDelta_theo_salary]
    rfl

theorem dayContrib_unpaid (c : Contract) (w : List Workday) (cur : SettingsSnapshot)
    (day : Date) :
    (dayContrib c w cur day).unpaid_deduction
      = (match lookupWorkday w day with
         | none => 0
         | some wd =>
           if wd.kind = WorkdayKind.unpaid_leave then
             unpaid_leave_deduction 1 cur.hours_per_week cur.days_per_week cur.hourly_rate
           else 0) := by
  unfold dayContrib
  split
  · rfl
  · next wd heq =>
    rw [maintDelta_unpaid, mealDelta_unpaid, totalsDelta_unpaid]
    unfold kindDelta
    cases wd.kind <;> simp [theoDelta, zeroState]

/-- The day's theoretical-hours contribution as the spec states it:
`monthlyHours(effective snapshot on d) / daysInThatCalendarMonth`. -/
def theoHoursContrib (c : Contract) (s : List SettingsSnapshot) (d : Date) : ℚ :=
  monthlyHoursQ (factsOf c (snapOn s d)) / (monthLength d.year d.month : ℚ)

/-- The day's theoretical-salary contribution:
`monthlySalary(effective snapshot on d) / daysInThatCalendarMonth`. -/
def theoSalaryContrib (c : Contract) (s : List SettingsSnapshot) (d : Date) : ℚ :=
  monthlySalaryQ (factsOf c (snapOn s d)) / (monthLength d.year d.month : ℚ)

/-- The day's unpaid-leave deduction contribution: one day's deduction computed from
the effective snapshot's `hours_per_week`, `days_per_week` and `hourly_rate` when the
day's record is `UnpaidLeave`, else 0. -/
def unpaidContrib (w : List Workday) (s : List SettingsSnapshot) (d : Date) : ℚ :=
  match lookupWorkday w d with
  | none => 0
  | some wd =>
    if wd.kind = WorkdayKind.unpaid_leave then
      unpaid_leave_deduction 1 (snapOn s d).hours_per_week (snapOn s d).days_per_week
        (snapOn s d).hourly_rate
    else 0

theorem map_eq_of_eq {A B : Type} (f g : A → B) (h : ∀ a, f a = g a) :
    ∀ l : List A, l.map f = l.map g := by
  intro l
  induction l with
  | nil => rfl
  | cons a rest ih => simp only [List.map_cons, h a, ih]

theorem summarize_theo_hours {c : Contract} {w : List Workday}
    {snaps : List SettingsSnapshot} {startDay stopDay : Date} {out : MonthlySummaryOut}
    (h : summarize_period c w snaps startDay stopDay = .ok out) :
    out.monthly_hours_theoretical = ((dayList startDay stopDay).map
      (theoHoursContrib c (build_settings_timeline c snaps))).sum := by
  rw [summarize_period_ok h]
  show (summarizeFold c w snaps startDay stopDay).theo_hours = _
  rw [summarizeFold]
  unfold dayList
  rw [foldl_dayStep_field c w (build_settings_timeline c snaps) (fun st => st.theo_hours)
    (fun _ _ _ => rfl) _ startDay stopDay zeroState
    (cursorInv_zero _ (timeline_ne_nil c snaps) _)]
  rw [show zeroState.theo_hours = 0 from rfl, zero_add]
  congr 1
  exact map_eq_of_eq _ _ (fun d => by rw [dayContrib_theo_hours]; rfl) _

theorem summarize_theo_salary {c : Contract} {w : List Workday}
    {snaps : List SettingsSnapshot} {startDay stopDay : Date} {out : MonthlySummaryOut}
    (h : summarize_period c w snaps startDay stopDay = .ok out) :
    out.monthly_salary_theoretical = ((dayList startDay stopDay).map
      (theoSalaryContrib c (build_settings_timeline c snaps))).sum := by
  rw [summarize_period_ok h]
  show (summarizeFold c w snaps startDay stopDay).theo_salary = _
  rw [summarizeFold]
  unfold dayList
  rw [foldl_dayStep_field c w (build_settings_timeline c snaps) (fun st => st.theo_salary)
    (fun _ _ _ => rfl) _ startDay stopDay zeroState
    (cursorInv_zero _ (timeline_ne_nil c snaps) _)]
  rw [show zeroState.theo_salary = 0 from rfl, zero_add]
  congr 1
  exact map_eq_of_eq _ _ (fun d => by rw [dayContrib_theo_salary]; rfl) _

/-- C1: for every period and every day in it, `summarize_period` adds
`monthlyHours(effective snapshot on d) / daysInThatCalendarMonth` to the theoretical
hours (and the analogous amount to theoretical salary) — the accumulated totals are
the sums of these per-day contributions — and in the 31-day scenario with rate 5
until Jan 15 and rate 6 from Jan 15, one Normal 8h day under each regime,
`salary_base = 8*5 + 8*6 = 88` and the theoretical hours are the day-weighted blend
`(theo1/31)*14 + (theo2/31)*17`. -/
theorem c1_daily_proration :
    (∀ (c : Contract) (w : List Workday) (snaps : List SettingsSnapshot)
      (startDay stopDay : Date) (out : MonthlySummaryOut),
      summarize_period c w snaps startDay stopDay = .ok out →
      out.monthly_hours_theoretical = ((dayList startDay stopDay).map
        (theoHoursContrib c (build_settings_timeline c snaps))).sum
      ∧ out.monthly_salary_theoretical = ((dayList startDay stopDay).map
        (theoSalaryContrib c (build_settings_timeline c snaps))).sum)
    ∧ summarize_period scContract scWorkdays sampleTimeline jan1 jan31 = .ok scOut
    ∧ scOut.salary_base = 8 * 5 + 8 * 6
    ∧ scOut.salary_base = 88
    ∧ scOut.monthly_hours_theoretical
        = (monthlyHoursQ (factsOf scContract snapA) / 31) * 14
          + (monthlyHoursQ (factsOf scContract snapB) / 31) * 17 := by
  refine ⟨fun c w snaps startDay stopDay out h =>
    ⟨summarize_theo_hours h, summarize_theo_salary h⟩, by rfl, ?_, ?_, ?_⟩
  · norm_num [scOut, mkSummary, summarizeFold, dayList, dayListAux, dayStep, dayContrib,
      nextDay, monthLength, isLeap, dayOrdinal, advanceCursor, cursorSteps, lookupWorkday,
      mergeState, zeroState, theoDelta, kindDelta, totalsDelta, mealDelta, maintDelta,
      workdayTotalsQ, unpaid_leave_deduction, monthlyHoursQ, monthlySalaryQ, factsOf,
      snapOn, effIdx, build_settings_timeline, snapshot_from_row, snapLE,
      List.insertionSort, List.orderedInsert, snapA, snapB, sampleTimeline, scContract,
      scWorkdays, jan1, jan31, dateLE]
  · norm_num [scOut, mkSummary, summarizeFold, dayList, dayListAux, dayStep, dayContrib,
      nextDay, monthLength, isLeap, dayOrdinal, advanceCursor, cursorSteps, lookupWorkday,
      mergeState, zeroState, theoDelta, kindDelta, totalsDelta, mealDelta, maintDelta,
      workdayTotalsQ, unpaid_leave_deduction, monthlyHoursQ, monthlySalaryQ, factsOf,
      snapOn, effIdx, build_settings_timeline, snapshot_from_row, snapLE,
      List.insertionSort, List.orderedInsert, snapA, snapB, sampleTimeline, scContract,
      scWorkdays, jan1, jan31, dateLE]
  · norm_num [scOut, mkSummary, summarizeFold, dayList, dayListAux, dayStep, dayContrib,
      nextDay, monthLength, isLeap, dayOrdinal, advanceCursor, cursorSteps, lookupWorkday,
      mergeState, zeroState, theoDelta, kindDelta, totalsDelta, mealDelta, maintDelta,
      workdayTotalsQ, unpaid_leave_deduction, monthlyHoursQ, monthlySalaryQ, factsOf,
      snapOn, effIdx, build_settings_timeline, snapshot_from_row, snapLE,
      List.insertionSort, List.orderedInsert, snapA, snapB, sampleTimeline, scContract,
      scWorkdays, jan1, jan31, dateLE]

/-- Witness for C1: the general pro-ration law applied to the concrete scenario. -/
theorem c1_daily_proration_witness :
    scOut.monthly_hours_theoretical = ((dayList jan1 jan31).map
      (theoHoursContrib scContract (build_settings_timeline scContract sampleTimeline))).sum :=
  (c1_daily_proration.1 scContract scWorkdays sampleTimeline jan1 jan31 scOut (by rfl)).1

/-- C6: `unpaid_leave_deduction` returns 0 when `days_per_week` is unset and
`day_count * (hours_per_week / days_per_week) * hourly_rate` otherwise; and the
deduction `summarize_period` accumulates is the sum, over the period's `UnpaidLeave`
days, of one day's deduction computed from the effective snapshot's fields (the
contract's own fields appear nowhere in the per-day amount). -/
theorem c6_unpaid_leave_deduction :
    (∀ day_count hpw rate : ℚ, unpaid_leave_deduction day_count hpw none rate = 0)
    ∧ (∀ day_count hpw dpw rate : ℚ,
        unpaid_leave_deduction day_count hpw (some dpw) rate
          = day_count * (hpw / dpw) * rate)
    ∧ (∀ (c : Contract) (w : List Workday) (snaps : List SettingsSnapshot)
        (startDay stopDay : Date) (out : MonthlySummaryOut),
        summarize_period c w snaps startDay stopDay = .ok out →
        out.unpaid_leave_deduction = ((dayList startDay stopDay).map
          (unpaidContrib w (build_settings_timeline c snaps))).sum) := by
  refine ⟨fun _ _ _ => rfl, fun _ _ _ _ => rfl, ?_⟩
  intro c w snaps startDay stopDay out h
  rw [summarize_period_ok h]
  show (summarizeFold c w snaps startDay stopDay).unpaid_deduction = _
  rw [summarizeFold]
  unfold dayList
  rw [foldl_dayStep_field c w (build_settings_timeline c snaps)
    (fun st => st.unpaid_deduction) (fun _ _ _ => rfl) _ startDay stopDay zeroState
    (cursorInv_zero _ (timeline_ne_nil c snaps) _)]
  rw [show zeroState.unpaid_deduction = 0 from rfl, zero_add]
  congr 1
  exact map_eq_of_eq _ _ (fun d => by rw [dayContrib_unpaid]; rfl) _

/-- Witness for C6: the accumulation law applied to the concrete scenario (one
unpaid-leave day on Jan 16 under the second snapshot). -/
theorem c6_unpaid_leave_deduction_witness :
    scOut.unpaid_leave_deduction = ((dayList jan1 jan31).map
      (unpaidContrib scWorkdays (build_settings_timeline scContract sampleTimeline))).sum :=
  c6_unpaid_leave_deduction.2.2 scContract scWorkdays sampleTimeline jan1 jan31 scOut
    (by rfl)

/-- C4: with a majoration threshold, `workday_totals` splits each included record's
hours per record (a daily threshold): `normal_hours` accumulates `min(hours, thr)`,
`majorated_hours` the remainder; `base_salary = normal * rate`,
`majoration_salary = majorated * rate * majoration_rate` (0 when no rate),
`total_salary` their sum; the threshold-8, rate-1.25 scenario on 10h and 6h Normal
records gives 16 / 14 / 2 / 70 / 12.5 / 82.5. -/
theorem c4_workday_totals_split :
    (∀ (wds : List WorkdayFacts) (rate thr : ℚ) (mr : Option ℚ)
      (inc : List WorkdayKind),
      (∀ wd ∈ wds.filter (fun wd => inc.contains wd.kind), 0 ≤ wd.hours) →
      workday_totals wds rate (some thr) mr inc = .ok
        ⟨((wds.filter (fun wd => inc.contains wd.kind)).map (fun wd => wd.hours)).sum,
         ((wds.filter (fun wd => inc.contains wd.kind)).map
           (fun wd => min wd.hours thr)).sum,
         ((wds.filter (fun wd => inc.contains wd.kind)).map
           (fun wd => wd.hours - min wd.hours thr)).sum,
         ((wds.filter (fun wd => inc.contains wd.kind)).map
           (fun wd => min wd.hours thr)).sum * rate,
         ((wds.filter (fun wd => inc.contains wd.kind)).map
           (fun wd => wd.hours - min wd.hours thr)).sum * rate * mr.getD 0,
         ((wds.filter (fun wd => inc.contains wd.kind)).map
           (fun wd => min wd.hours thr)).sum * rate
           + ((wds.filter (fun wd => inc.contains wd.kind)).map
             (fun wd => wd.hours - min wd.hours thr)).sum * rate * mr.getD 0⟩)
    ∧ workday_totals [⟨⟨2025, 2, 1⟩, 10, .normal⟩, ⟨⟨2025, 2, 2⟩, 6, .normal⟩] 5
        (some 8) (some (5/4)) [WorkdayKind.normal]
      = .ok ⟨16, 14, 2, 70, 25/2, 165/2⟩ := by
  constructor
  · intro wds rate thr mr inc h
    rw [workday_totals, if_neg]
    · rfl
    · intro hcontra
      rw [List.any_eq_true] at hcontra
      obtain ⟨x, hx, hneg⟩ := hcontra
      exact absurd (h x hx) (not_le.mpr (of_decide_eq_true hneg))
  · norm_num [workday_totals, workdayTotalsQ, min_def]

/-- Record list, include-kinds and the included sublist of the C4 scenario. -/
def c4wds : List WorkdayFacts := [⟨⟨2025, 2, 1⟩, 10, .normal⟩, ⟨⟨2025, 2, 2⟩, 6, .normal⟩]

def c4inc : List WorkdayKind := [WorkdayKind.normal]

def c4included : List WorkdayFacts := c4wds.filter (fun wd => c4inc.contains wd.kind)

/-- Witness for C4: the splitting law applied to the two-record scenario. -/
theorem c4_workday_totals_split_witness :
    workday_totals c4wds 5 (some 8) (some (5/4)) c4inc = .ok
      ⟨(c4included.map (fun wd => wd.hours)).sum,
       (c4included.map (fun wd => min wd.hours 8)).sum,
       (c4included.map (fun wd => wd.hours - min wd.hours 8)).sum,
       (c4included.map (fun wd => min wd.hours 8)).sum * 5,
       (c4included.map (fun wd => wd.hours - min wd.hours 8)).sum * 5
         * Option.getD (some (5/4)) 0,
       (c4included.map (fun wd => min wd.hours 8)).sum * 5
         + (c4included.map (fun wd => wd.hours - min wd.hours 8)).sum * 5
           * Option.getD (some (5/4)) 0⟩ :=
  c4_workday_totals_split.1 c4wds 5 8 (some (5/4)) c4inc (by simp [c4wds, c4inc])

/-! ## app.py : build_year_summary -/

/-- The `totals` dict of `build_year_summary`: the nineteen summed fields plus the two
recomputed ones (`hours_delta`, `average_hours_per_day`, filled in at the end). -/
structure YearTotals where
  hours_real : ℚ
  hours_normal : ℚ
  hours_majorated : ℚ
  work_days : Nat
  absence_days : Nat
  unpaid_leave_days : Nat
  assmat_leave_days : Nat
  holiday_days : Nat
  salary_base : ℚ
  salary_majoration : ℚ
  salary_real_estimated : ℚ
  fee_meal_days : Nat
  fee_maintenance_days : Nat
  fee_meal_total : ℚ
  fee_maintenance_total : ℚ
  unpaid_leave_deduction : ℚ
  total_estimated : ℚ
  yearly_hours_theoretical : ℚ
  yearly_salary_theoretical : ℚ
  hours_delta : ℚ
  average_hours_per_day : ℚ
deriving Inhabited, DecidableEq

/-- All totals start at zero. -/
def zeroYearTotals : YearTotals :=
  ⟨0, 0, 0, 0, 0, 0, 0, 0, 0, 0, 0, 0, 0, 0, 0, 0, 0, 0, 0, 0, 0⟩

/-- The `totals[...] += summary. ...` block executed once per month. -/
def addSummary (t : YearTotals) (ms : MonthlySummaryOut) : YearTotals :=
  ⟨t.hours_real + ms.hours_real, t.hours_normal + ms.hours_normal,
    t.hours_majorated + ms.hours_majorated, t.work_days + ms.work_days,
    t.absence_days + ms.absence_days, t.unpaid_leave_days + ms.unpaid_leave_days,
    t.assmat_leave_days + ms.assmat_leave_days, t.holiday_days + ms.holiday_days,
    t.salary_base + ms.salary_base, t.salary_majoration + ms.salary_majoration,
    t.salary_real_estimated + ms.salary_real_estimated,
    t.fee_meal_days + ms.fee_meal_days, t.fee_maintenance_days + ms.fee_maintenance_days,
    t.fee_meal_total + ms.fee_meal_total,
    t.fee_maintenance_total + ms.fee_maintenance_total,
    t.unpaid_leave_deduction + ms.unpaid_leave_deduction,
    t.total_estimated + ms.total_estimated,
    t.yearly_hours_theoretical + ms.monthly_hours_theoretical,
    t.yearly_salary_theoretical + ms.monthly_salary_theoretical,
    t.hours_delta, t.average_hours_per_day⟩

/-- One month of the `for month in range(1, 13)` loop: summarize the month's workdays
over `[month_start, month_end]` (the month's records are selected by
`wd.date.month == month`), append the item, add the summary into the totals. -/
def monthStep (c : Contract) (w : List Workday) (snaps : List SettingsSnapshot)
    (year : Nat) (acc : List (Nat × MonthlySummaryOut) × YearTotals) (m : Nat) :
    Except String (List (Nat × MonthlySummaryOut) × YearTotals) :=
  match summarize_period c (w.filter (fun wd => wd.date.month == m)) snaps
      ⟨year, m, 1⟩ ⟨year, m, monthLength year m⟩ with
  | .error e => .error e
  | .ok summary => .ok (acc.1 ++ [(m, summary)], addSummary acc.2 summary)

/-- The month loop over a list of month numbers, propagating a raised error. -/
def runMonthsE (c : Contract) (w : List Workday) (snaps : List SettingsSnapshot)
    (year : Nat) : List Nat → (List (Nat × MonthlySummaryOut) × YearTotals) →
    Except String (List (Nat × MonthlySummaryOut) × YearTotals)
  | [], acc => .ok acc
  | m :: rest, acc =>
    match monthStep c w snaps year acc m with
    | .error e => .error e
    | .ok acc1 => runMonthsE c w snaps year rest acc1

/-- The record `build_year_summary` returns: the year bounds, the twelve monthly
items (month number and summary) and the folded totals. -/
structure YearSummaryOut where
  year : Nat
  period_start : Date
  period_end : Date
  monthly_items : List (Nat × MonthlySummaryOut)
  totals : YearTotals
deriving Inhabited, DecidableEq

/-- The epilogue: `hours_delta` and `average_hours_per_day` recomputed from the summed
components (`totals.update(...)`). -/
def finalizeTotals (t : YearTotals) : YearTotals :=
  { t with
      hours_delta := t.hours_real - t.yearly_hours_theoretical
      average_hours_per_day :=
        if t.work_days = 0 then 0 else t.hours_real / (t.work_days : ℚ) }

/-- Python `build_year_summary(contract_id, year)` minus the storage lookups: twelve
monthly summaries over `[date(y, m, 1), date(y, m, monthrange)]`, summed field by
field. -/
def build_year_summary (c : Contract) (w : List Workday)
    (snaps : List SettingsSnapshot) (year : Nat) : Except String YearSummaryOut :=
  match runMonthsE c w snaps year (List.range' 1 12) ([], zeroYearTotals) with
  | .error e => .error e
  | .ok acc => .ok ⟨year, ⟨year, 1, 1⟩, ⟨year, 12, 31⟩, acc.1, finalizeTotals acc.2⟩

theorem runMonthsE_ok (c : Contract) (w : List Workday) (snaps : List SettingsSnapshot)
    (year : Nat) :
    ∀ (ml : List Nat) (acc res : List (Nat × MonthlySummaryOut) × YearTotals),
      runMonthsE c w snaps year ml acc = .ok res →
      ∃ L, res.1 = acc.1 ++ L
        ∧ res.2 = L.foldl (fun t p => addSummary t p.2) acc.2 := by
  intro ml
  induction ml with
  | nil =>
    intro acc res h
    exact ⟨[], by rw [← Except.ok.inj h]; simp⟩
  | cons m rest ih =>
    intro acc res h
    unfold runMonthsE at h
    split at h
    next heq => cases h
    next acc1 heq =>
      obtain ⟨L, hL1, hL2⟩ := ih acc1 res h
      unfold monthStep at heq
      split at heq
      next => cases heq
      next summary hsum =>
        refine ⟨(m, summary) :: L, ?_, ?_⟩
        · rw [hL1, ← Except.ok.inj heq]
          simp
        · rw [hL2, ← Except.ok.inj heq, List.foldl_cons]

theorem foldl_addSummary_field (g : YearTotals → ℚ) (g2 : MonthlySummaryOut → ℚ)
    (hg : ∀ t ms, g (addSummary t ms) = g t + g2 ms) :
    ∀ (L : List (Nat × MonthlySummaryOut)) (t : YearTotals),
      g (L.foldl (fun t p => addSummary t p.2) t) = g t + (L.map (fun p => g2 p.2)).sum := by
  intro L
  induction L with
  | nil => intro t; simp
  | cons p rest ih =>
    intro t
    rw [List.foldl_cons, ih, hg, List.map_cons, List.sum_cons]
    ring

theorem foldl_addSummary_fieldN (g : YearTotals → Nat) (g2 : MonthlySummaryOut → Nat)
    (hg : ∀ t ms, g (addSummary t ms) = g t + g2 ms) :
    ∀ (L : List (Nat × MonthlySummaryOut)) (t : YearTotals),
      g (L.foldl (fun t p => addSummary t p.2) t) = g t + (L.map (fun p => g2 p.2)).sum := by
  intro L
  induction L with
  | nil => intro t; simp
  | cons p rest ih =>
    intro t
    rw [List.foldl_cons, ih, hg, List.map_cons, List.sum_cons]
    omega

/-- C7: the year aggregator's totals equal, field for field, the sums of the
corresponding additive fields over the twelve monthly summaries it computes, while
`hours_delta` and `average_hours_per_day` are recomputed from the summed components
(year delta = summed real hours minus summed theoretical hours; year average = summed
real hours over summed work days, 0 when the latter is 0 — not the mean of the twelve
monthly averages). -/
theorem c7_year_aggregation (c : Contract) (w : List Workday)
    (snaps : List SettingsSnapshot) (year : Nat) (ys : YearSummaryOut)
    (h : build_year_summary c w snaps year = .ok ys) :
    ys.totals.hours_real = (ys.monthly_items.map (fun p => p.2.hours_real)).sum
    ∧ ys.totals.hours_normal = (ys.monthly_items.map (fun p => p.2.hours_normal)).sum
    ∧ ys.totals.hours_majorated
        = (ys.monthly_items.map (fun p => p.2.hours_majorated)).sum
    ∧ ys.totals.work_days = (ys.monthly_items.map (fun p => p.2.work_days)).sum
    ∧ ys.totals.absence_days = (ys.monthly_items.map (fun p => p.2.absence_days)).sum
    ∧ ys.totals.unpaid_leave_days
        = (ys.monthly_items.map (fun p => p.2.unpaid_leave_days)).sum
    ∧ ys.totals.assmat_leave_days
        = (ys.monthly_items.map (fun p => p.2.assmat_leave_days)).sum
    ∧ ys.totals.holiday_days = (ys.monthly_items.map (fun p => p.2.holiday_days)).sum
    ∧ ys.totals.salary_base = (ys.monthly_items.map (fun p => p.2.salary_base)).sum
    ∧ ys.totals.salary_majoration
        = (ys.monthly_items.map (fun p => p.2.salary_majoration)).sum
    ∧ ys.totals.salary_real_estimated
        = (ys.monthly_items.map (fun p => p.2.salary_real_estimated)).sum
    ∧ ys.totals.fee_meal_days = (ys.monthly_items.map (fun p => p.2.fee_meal_days)).sum
    ∧ ys.totals.fee_maintenance_days
        = (ys.monthly_items.map (fun p => p.2.fee_maintenance_days)).sum
    ∧ ys.totals.fee_meal_total
        = (ys.monthly_items.map (fun p => p.2.fee_meal_total)).sum
    ∧ ys.totals.fee_maintenance_total
        = (ys.monthly_items.map (fun p => p.2.fee_maintenance_total)).sum
    ∧ ys.totals.unpaid_leave_deduction
        = (ys.monthly_items.map (fun p => p.2.unpaid_leave_deduction)).sum
    ∧ ys.totals.total_estimated
        = (ys.monthly_items.map (fun p => p.2.total_estimated)).sum
    ∧ ys.totals.yearly_hours_theoretical
        = (ys.monthly_items.map (fun p => p.2.monthly_hours_theoretical)).sum
    ∧ ys.totals.yearly_salary_theoretical
        = (ys.monthly_items.map (fun p => p.2.monthly_salary_theoretical)).sum
    ∧ ys.totals.hours_delta
        = (ys.monthly_items.map (fun p => p.2.hours_real)).sum
          - (ys.monthly_items.map (fun p => p.2.monthly_hours_theoretical)).sum
    ∧ ys.totals.average_hours_per_day
        = (if (ys.monthly_items.map (fun p => p.2.work_days)).sum = 0 then 0
           else (ys.monthly_items.map (fun p => p.2.hours_real)).sum
             / (((ys.monthly_items.map (fun p => p.2.work_days)).sum : Nat) : ℚ)) := by
  unfold build_year_summary at h
  split at h
  next heq => cases h
  next acc heq =>
    obtain ⟨L, hL1, hL2⟩ := runMonthsE_ok c w snaps year (List.range' 1 12)
      ([], zeroYearTotals) acc heq
    have h1 := Except.ok.inj h
    have hti : ys.monthly_items = L := by rw [← h1]; simpa using hL1
    have htt : ys.totals
        = finalizeTotals (L.foldl (fun t p => addSummary t p.2) zeroYearTotals) := by
      rw [← h1]
      show finalizeTotals acc.2 = _
      rw [hL2]
    refine ⟨?_, ?_, ?_, ?_, ?_, ?_, ?_, ?_, ?_, ?_, ?_, ?_, ?_, ?_, ?_, ?_, ?_, ?_,
      ?_, ?_, ?_⟩
    all_goals rw [htt, hti]
    all_goals dsimp only [finalizeTotals]
    · rw [foldl_addSummary_field (fun t => t.hours_real) (fun ms => ms.hours_real)
        (fun _ _ => rfl) L zeroYearTotals]
      simp [zeroYearTotals]
    · rw [foldl_addSummary_field (fun t => t.hours_normal) (fun ms => ms.hours_normal)
        (fun _ _ => rfl) L zeroYearTotals]
      simp [zeroYearTotals]
    · rw [foldl_addSummary_field (fun t => t.hours_majorated)
        (fun ms => ms.hours_majorated) (fun _ _ => rfl) L zeroYearTotals]
      simp [zeroYearTotals]
    · rw [foldl_addSummary_fieldN (fun t => t.work_days) (fun ms => ms.work_days)
        (fun _ _ => rfl) L zeroYearTotals]
      simp [zeroYearTotals]
    · rw [foldl_addSummary_fieldN (fun t => t.absence_days) (fun ms => ms.absence_days)
        (fun _ _ => rfl) L zeroYearTotals]
      simp [zeroYearTotals]
    · rw [foldl_addSummary_fieldN (fun t => t.unpaid_leave_days)
        (fun ms => ms.unpaid_leave_days) (fun _ _ => rfl) L zeroYearTotals]
      simp [zeroYearTotals]
    · rw [foldl_addSummary_fieldN (fun t => t.assmat_leave_days)
        (fun ms => ms.assmat_leave_days) (fun _ _ => rfl) L zeroYearTotals]
      simp [zeroYearTotals]
    · rw [foldl_addSummary_fieldN (fun t => t.holiday_days) (fun ms => ms.holiday_days)
        (fun _ _ => rfl) L zeroYearTotals]
      simp [zeroYearTotals]
    · rw [foldl_addSummary_field (fun t => t.salary_base) (fun ms => ms.salary_base)
        (fun _ _ => rfl) L zeroYearTotals]
      simp [zeroYearTotals]
    · rw [foldl_addSummary_field (fun t => t.salary_majoration)
        (fun ms => ms.salary_majoration) (fun _ _ => rfl) L zeroYearTotals]
      simp [zeroYearTotals]
    · rw [foldl_addSummary_field (fun t => t.salary_real_estimated)
        (fun ms => ms.salary_real_estimated) (fun _ _ => rfl) L zeroYearTotals]
      simp [zeroYearTotals]
    · rw [foldl_addSummary_fieldN (fun t => t.fee_meal_days)
        (fun ms => ms.fee_meal_days) (fun _ _ => rfl) L zeroYearTotals]
      simp [zeroYearTotals]
    · rw [foldl_addSummary_fieldN (fun t => t.fee_maintenance_days)
        (fun ms => ms.fee_maintenance_days) (fun _ _ => rfl) L zeroYearTotals]
      simp [zeroYearTotals]
    · rw [foldl_addSummary_field (fun t => t.fee_meal_total)
        (fun ms => ms.fee_meal_total) (fun _ _ => rfl) L zeroYearTotals]
      simp [zeroYearTotals]
    · rw [foldl_addSummary_field (fun t => t.fee_maintenance_total)
        (fun ms => ms.fee_maintenance_total) (fun _ _ => rfl) L zeroYearTotals]
      simp [zeroYearTotals]
    · rw [foldl_addSummary_field (fun t => t.unpaid_leave_deduction)
        (fun ms => ms.unpaid_leave_deduction) (fun _ _ => rfl) L zeroYearTotals]
      simp [zeroYearTotals]
    · rw [foldl_addSummary_field (fun t => t.total_estimated)
        (fun ms => ms.total_estimated) (fun _ _ => rfl) L zeroYearTotals]
      simp [zeroYearTotals]
    · rw [foldl_addSummary_field (fun t => t.yearly_hours_theoretical)
        (fun ms => ms.monthly_hours_theoretical) (fun _ _ => rfl) L zeroYearTotals]
      simp [zeroYearTotals]
    · rw [foldl_addSummary_field (fun t => t.yearly_salary_theoretical)
        (fun ms => ms.monthly_salary_theoretical) (fun _ _ => rfl) L zeroYearTotals]
      simp [zeroYearTotals]
    · rw [foldl_addSummary_field (fun t => t.hours_real) (fun ms => ms.hours_real)
        (fun _ _ => rfl) L zeroYearTotals,
        foldl_addSummary_field (fun t => t.yearly_hours_theoretical)
        (fun ms => ms.monthly_hours_theoretical) (fun _ _ => rfl) L zeroYearTotals]
      simp [zeroYearTotals]
    · rw [foldl_addSummary_fieldN (fun t => t.work_days) (fun ms => ms.work_days)
        (fun _ _ => rfl) L zeroYearTotals,
        foldl_addSummary_field (fun t => t.hours_real) (fun ms => ms.hours_real)
        (fun _ _ => rfl) L zeroYearTotals]
      simp [zeroYearTotals]

/-- The year summary the embedding computes for 2025 in the concrete scenario. -/
def scYear : YearSummaryOut :=
  match runMonthsE scContract scWorkdays sampleTimeline 2025 (List.range' 1 12)
      ([], zeroYearTotals) with
  | .error _ => default
  | .ok acc => ⟨2025, ⟨2025, 1, 1⟩, ⟨2025, 12, 31⟩, acc.1, finalizeTotals acc.2⟩

/-- Witness for C7 on the concrete 2025 scenario. -/
theorem c7_year_aggregation_witness :
    scYear.totals.hours_real = (scYear.monthly_items.map (fun p => p.2.hours_real)).sum :=
  (c7_year_aggregation scContract scWorkdays sampleTimeline 2025 scYear (by rfl)).1

/-! ## Totality of the summarizer under positive snapshot parameters -/

/-- Every snapshot of the timeline has positive tunable parameters (the precondition
under which no positivity assertion can raise). -/
def SnapPos (s : List SettingsSnapshot) : Prop :=
  ∀ snap ∈ s, 0 < snap.hours_per_week ∧ 0 < snap.weeks_per_year ∧ 0 < snap.hourly_rate

theorem dayStepE_ok_of_pos {c : Contract} {w : List Workday} {s : List SettingsSnapshot}
    {st : LoopState} {day : Date} (hpos : SnapPos s) (hidx : st.idx < s.length) :
    dayStepE c w s st day = .ok (dayStep c w s st day) := by
  have hi : advanceCursor s day st.idx < s.length := advanceCursor_lt s day hidx
  have hmem : s.getD (advanceCursor s day st.idx) default ∈ s := by
    rw [List.getD_eq_getElem _ _ hi]
    exact List.getElem_mem hi
  obtain ⟨p1, p2, p3⟩ := hpos _ hmem
  unfold dayStepE
  rw [contract_monthly_hours_of_pos p1 p2, contract_monthly_salary_of_pos p1 p2 p3]
  cases hlk : lookupWorkday w day with
  | none => rfl
  | some wd =>
    dsimp only
    by_cases hcond : wd.kind = WorkdayKind.normal ∧ 0 < wd.hours
    · have hwt : workday_totals [⟨wd.date, wd.hours, wd.kind⟩]
          (s.getD (advanceCursor s day st.idx) default).hourly_rate
          (s.getD (advanceCursor s day st.idx) default).majoration_threshold
          (s.getD (advanceCursor s day st.idx) default).majoration_rate
          [WorkdayKind.normal]
          = .ok (workdayTotalsQ [⟨wd.date, wd.hours, wd.kind⟩]
            (s.getD (advanceCursor s day st.idx) default).hourly_rate
            (s.getD (advanceCursor s day st.idx) default).majoration_threshold
            (s.getD (advanceCursor s day st.idx) default).majoration_rate
            [WorkdayKind.normal]) := by
        unfold workday_totals
        rw [if_neg]
        intro hc
        rw [List.any_eq_true] at hc
        obtain ⟨x, hx, hneg⟩ := hc
        rw [List.mem_filter] at hx
        have hx1 : x = (⟨wd.date, wd.hours, wd.kind⟩ : WorkdayFacts) := by
          simpa using hx.1
        have : x.hours < 0 := of_decide_eq_true hneg
        rw [hx1] at this
        exact absurd hcond.2 (not_lt.mpr (le_of_lt this))
      rw [if_pos hcond, hwt]
    · rw [if_neg hcond]

theorem runDaysE_ok_of_pos (c : Contract) (w : List Workday)
    (s : List SettingsSnapshot) (hpos : SnapPos s) :
    ∀ (L : List Date) (st : LoopState), st.idx < s.length →
      runDaysE c w s L st = .ok (L.foldl (dayStep c w s) st) := by
  intro L
  induction L with
  | nil => intro st _; rfl
  | cons day rest ih =>
    intro st h
    unfold runDaysE
    rw [dayStepE_ok_of_pos hpos h]
    exact ih (dayStep c w s st day) (by rw [dayStep_idx]; exact advanceCursor_lt s day h)

theorem summarize_period_ok_of_pos (c : Contract) (w : List Workday)
    (snaps : List SettingsSnapshot) (startDay stopDay : Date)
    (hpos : SnapPos (build_settings_timeline c snaps)) :
    summarize_period c w snaps startDay stopDay
      = .ok (mkSummary startDay stopDay (summarizeFold c w snaps startDay stopDay)) := by
  unfold summarize_period
  rw [runDaysE_ok_of_pos c w _ hpos (dayList startDay stopDay) zeroState
    (show zeroState.idx < _ from List.length_pos.mpr (timeline_ne_nil c snaps))]
  rfl

/-- C10: on a sorted timeline, for a day strictly earlier than the first entry's
`valid_from`, the settings cursor stays at index 0 and the first snapshot is the one
applied; the cursor index stays in range for every day of any requested range (every
day is attributed to some snapshot); and `summarize_period` does not fail on any
range — in particular one starting before the contract's start — whenever the
timeline's parameters are positive. -/
theorem c10_precontract_days :
    (∀ (s : List SettingsSnapshot) (d : Date), s ≠ [] →
      List.Pairwise snapLE s → ¬ dateLE ((s.getD 0 default).valid_from) d →
      advanceCursor s d 0 = 0 ∧ snapOn s d = s.getD 0 default)
    ∧ (∀ (s : List SettingsSnapshot) (d : Date) (i : Nat), i < s.length →
        advanceCursor s d i < s.length)
    ∧ (∀ (c : Contract) (w : List Workday) (snaps : List SettingsSnapshot)
        (startDay stopDay : Date), SnapPos (build_settings_timeline c snaps) →
        ∃ out, summarize_period c w snaps startDay stopDay = .ok out) := by
  refine ⟨?_, fun s d i h => advanceCursor_lt s d h, fun c w snaps a b hpos =>
    ⟨_, summarize_period_ok_of_pos c w snaps a b hpos⟩⟩
  intro s d hne hs h0
  have hz : advanceCursor s d 0 = 0 := by
    unfold advanceCursor
    cases hd : s.drop (0 + 1) with
    | nil => rfl
    | cons b rest =>
      simp only [cursorSteps]
      rw [if_neg]
      intro hble
      have h1 : 1 < s.length := by
        have hlen := congrArg List.length hd
        rw [List.length_drop] at hlen
        simp at hlen
        omega
      have hb : b = s.getD 1 default := by
        have hgd : (s.drop (0 + 1)).getD 0 default = s.getD (0 + 1 + 0) default :=
          getD_drop s (0 + 1) 0
        rw [hd] at hgd
        simpa using hgd
      have hp : snapLE (s.getD 0 default) (s.getD 1 default) := by
        rw [List.pairwise_iff_getElem] at hs
        have hps := hs 0 1 (by omega) h1 (by omega)
        rwa [← List.getD_eq_getElem _ default (by omega : 0 < s.length),
          ← List.getD_eq_getElem _ default h1] at hps
      exact h0 (dateLE_trans hp (by rw [← hb]; exact hble))
  refine ⟨hz, ?_⟩
  unfold snapOn effIdx
  rw [hz]

/-- Witness for C10: the sample timeline starts on 2025-01-01; on 2024-05-01 the
cursor stays at 0. -/
theorem c10_precontract_days_witness :
    advanceCursor sampleTimeline ⟨2024, 5, 1⟩ 0 = 0 :=
  (c10_precontract_days.1 sampleTimeline ⟨2024, 5, 1⟩ (by decide) (by decide)
    (by decide)).1
